import Mathlib

/-!
Shallow embedding of `src/calculator.py` from rahul7381/my_calculator_project.

Numbers are modelled by `ℚ` (the source computes with Python double-precision
floats; the claims under verification concern parsing outcomes, error
dispatch, fold order and registry construction, none of which depend on
rounding).  A raised `ValueError` from `float(...)` is modelled by `none`
from `parseFloat`; the `try/except ValueError` wrapper of each command is
modelled by matching on that `Option`.
-/

/-- The value that the `execute` method of a command returns in the source: either a number or
an error message string (the Python code returns `float`/`int` on success and
a `str` beginning with `Error:` on failure). -/
inductive Result where
  | num (val : ℚ)
  | err (msg : String)
deriving DecidableEq, Repr

/-- Value of a run of decimal digit characters, most significant first. -/
def digitsToNat (ds : List Char) : Nat :=
  ds.foldl (fun n c => 10 * n + (c.toNat - 48)) 0

/-- Unsigned part of Python `float` literal parsing restricted to plain
decimal notation: `digits`, `digits.digits`, `digits.` or `.digits`.
(Python `float()` additionally accepts exponents, `inf`/`nan` and
underscores; those forms never appear in the claims or the tests of the repository
 and are not modelled.) -/
def parseUnsigned (cs : List Char) : Option ℚ :=
  let intPart := cs.takeWhile Char.isDigit
  let rest := cs.dropWhile Char.isDigit
  match rest with
  | [] => if intPart.isEmpty then none else some (digitsToNat intPart)
  | '.' :: frac =>
      if frac.all Char.isDigit && (!intPart.isEmpty || !frac.isEmpty) then
        some ((digitsToNat intPart : ℚ) + (digitsToNat frac : ℚ) / (10 ^ frac.length : ℚ))
      else none
  | _ => none

/-- Model of Python `float(token)`: `some q` when the token parses as a
(signed) decimal number, `none` when `float` raises `ValueError`. -/
def parseFloat (s : String) : Option ℚ :=
  match s.toList with
  | '+' :: cs => parseUnsigned cs
  | '-' :: cs => (parseUnsigned cs).map (fun q => -q)
  | cs => parseUnsigned cs

/-- Model of `list(map(float, args))` inside a `try`: `none` as soon as any
token raises `ValueError`, otherwise the list of parsed numbers. -/
def parseAll : List String → Option (List ℚ)
  | [] => some []
  | a :: rest =>
    match parseFloat a with
    | none => none
    | some q => (parseAll rest).map (fun qs => q :: qs)

/-- Model of `AddCommand.execute` (src/calculator.py lines 32-42): empty argument list
returns `0`; otherwise the sum of all parsed values; a `ValueError` from any
token yields the invalid-input error. -/
def AddCommand.execute (args : List String) : Result :=
  if args.isEmpty then .num 0
  else
    match parseAll args with
    | none => .err "Error: Invalid input"
    | some numbers => .num numbers.sum

/-- Model of `SubtractCommand.execute` (src/calculator.py lines 44-55): empty argument
list returns the invalid-input error; otherwise `numbers[0] - sum(numbers[1:])`;
a `ValueError` yields the invalid-input error. -/
def SubtractCommand.execute (args : List String) : Result :=
  if args.isEmpty then .err "Error: Invalid input"
  else
    match parseAll args with
    | none => .err "Error: Invalid input"
    | some numbers =>
      match numbers with
      | [] => .err "Error: Invalid input"
      | n :: rest => .num (n - rest.sum)

/-- Model of `MultiplyCommand.execute` (src/calculator.py lines 57-69): empty argument
list returns `1`; otherwise the running product starting from `1.0`; a
`ValueError` yields the invalid-input error. -/
def MultiplyCommand.execute (args : List String) : Result :=
  if args.isEmpty then .num 1
  else
    match parseAll args with
    | none => .err "Error: Invalid input"
    | some numbers => .num (numbers.foldl (fun acc n => acc * n) 1)

/-- The `for num in numbers[1:]` loop of `DivideCommand.execute`
(src/calculator.py lines 79-86): divide the accumulator by each divisor in
order, returning the division-by-zero error at the first divisor equal to
`0` without touching the remaining divisors. -/
def divideFold (acc : ℚ) : List ℚ → Result
  | [] => .num acc
  | n :: rest =>
    if n = 0 then .err "Error: Division by zero"
    else divideFold (acc / n) rest

/-- Model of `DivideCommand.execute` (src/calculator.py lines 71-89): empty argument
list returns the invalid-input error; all tokens are parsed first (so a
`ValueError` yields the invalid-input error before any other check); exactly
one parsed number yields the insufficient-operands error; otherwise a
left-to-right fold of division with a zero-divisor check before each step. -/
def DivideCommand.execute (args : List String) : Result :=
  if args.isEmpty then .err "Error: Invalid input"
  else
    match parseAll args with
    | none => .err "Error: Invalid input"
    | some numbers =>
      if numbers.length = 1 then .err "Error: Division requires at least two numbers"
      else
        match numbers with
        | [] => .err "Error: Invalid input"
        | n :: rest => divideFold n rest

/-- Type of a registered operation: the `execute` method of a `Command`
object, a function from the string argument list to a `Result`. -/
abbrev Command := List String → Result

/-- Lookup in a Python `dict` modelled as an association list whose keys are
unique (first match; with `dictInsert` below, keys stay unique). -/
def dictLookup {α : Type} : List (String × α) → String → Option α
  | [], _ => none
  | (k, v) :: rest, key => if k = key then some v else dictLookup rest key

/-- Assignment `d[key] = v` on a Python `dict`: replace the binding in place when the
key is present, append it otherwise. -/
def dictInsert {α : Type} : List (String × α) → String → α → List (String × α)
  | [], key, v => [(key, v)]
  | (k, w) :: rest, key, v =>
    if k = key then (key, v) :: rest else (k, w) :: dictInsert rest key v

/-- Merge `d.update(entries)` on a Python `dict`: insert each entry in order, later
entries overwriting earlier bindings of the same key. -/
def dictUpdate {α : Type} (d : List (String × α)) (entries : List (String × α)) :
    List (String × α) :=
  entries.foldl (fun acc kv => dictInsert acc kv.1 kv.2) d

/-- The `dict` literal of src/calculator.py lines 118-123: the four built-in
operations under fixed lowercase names, in source order (keys distinct, so
the successive insertions of the literal equal this list). -/
def builtinCommands : List (String × Command) :=
  [("add", AddCommand.execute),
   ("subtract", SubtractCommand.execute),
   ("multiply", MultiplyCommand.execute),
   ("divide", DivideCommand.execute)]

/-- Model of `commands` (src/calculator.py lines 118-126): the registry built from the
built-in dict literal, then `commands.update(load_dynamic_commands())`,
parameterised by whatever mapping the plugin loader accumulated. -/
def commands (pluginCommands : List (String × Command)) : List (String × Command) :=
  dictUpdate builtinCommands pluginCommands

/-- Outcome of a Python `importlib.import_module` call: the module object on
success, `ModuleNotFoundError`, or any other exception with its message. -/
inductive ImportOutcome (α : Type) where
  | notFound
  | failure (msg : String)
  | ok (val : α)

/-- A sub-module discovered by `pkgutil.iter_modules`: its name together
with what importing it yields — an exception, or a module that may or may
not expose a `COMMANDS` mapping. -/
structure PluginModule where
  name : String
  outcome : ImportOutcome (Option (List (String × Command)))

/-- The level of a `logger` call in the source. -/
inductive LogLevel where
  | info
  | warning
  | error
deriving DecidableEq, Repr

/-- The `for _, module_name, _ in pkgutil.iter_modules(...)` loop of
`PluginLoader.load_plugins` (src/calculator.py lines 102-106) together with
the two `except` handlers (lines 107-110): an exception raised while
importing a sub-module stops the loop, is logged (warning for
`ModuleNotFoundError`, error otherwise) and leaves the commands accumulated
so far; a module exposing `COMMANDS` is merged with `dict.update` and
logged. -/
def PluginLoader.loadLoop (pkgName : String) (acc : List (String × Command))
    (logs : List (LogLevel × String)) :
    List PluginModule → List (String × Command) × List (LogLevel × String)
  | [] => (acc, logs)
  | m :: rest =>
    match m.outcome with
    | .notFound =>
        (acc, logs ++ [(.warning, "Plugin package \x27" ++ pkgName ++ "\x27 not found.")])
    | .failure e => (acc, logs ++ [(.error, "Error loading plugins: " ++ e)])
    | .ok none => PluginLoader.loadLoop pkgName acc logs rest
    | .ok (some cmds) =>
        PluginLoader.loadLoop pkgName (dictUpdate acc cmds)
          (logs ++ [(.info, "Loaded plugin: " ++ m.name)]) rest

/-- Model of `PluginLoader.load_plugins` (src/calculator.py lines 98-110): start from
the empty mapping `self.commands = {}`; importing the plugin package may
itself raise (`ModuleNotFoundError` → warning, anything else → error), else
iterate over its sub-modules.  Returns the accumulated command mapping and
the log lines emitted; being a total function, no exception escapes. -/
def PluginLoader.load_plugins (pkgName : String)
    (pkg : ImportOutcome (List PluginModule)) :
    List (String × Command) × List (LogLevel × String) :=
  match pkg with
  | .notFound => ([], [(.warning, "Plugin package \x27" ++ pkgName ++ "\x27 not found.")])
  | .failure e => ([], [(.error, "Error loading plugins: " ++ e)])
  | .ok mods => PluginLoader.loadLoop pkgName [] [] mods

/-- What one iteration of the REPL does with the line it read: continue the
loop (possibly after printing a line) or terminate (printing the farewell). -/
inductive ReplAction where
  | next (output : Option String)
  | halt (output : String)

/-- Model of `input(...).strip().split()` (src/calculator.py line 133): split on runs
of whitespace, ignoring leading and trailing whitespace. -/
def splitInput (line : String) : List String :=
  (line.split Char.isWhitespace).filter (fun t => t ≠ "")

/-- How `print("Result:", result)` renders an execute result: a number prints
as its value, an error as its message.  (Python prints floats in float repr;
the numeric rendering is abstracted to `toString` on `ℚ`.) -/
def renderResult : Result → String
  | .num q => toString q
  | .err msg => msg

/-- One iteration of `repl` (src/calculator.py lines 131-149), acting on the
registry it reads: empty token list → silent continue; `exit` and `menu` are
checked before registry lookup; otherwise look the first token up in the
registry and run it on the remaining tokens, or report an invalid command.
The returned registry is the one the next iteration will use — the loop
body never writes to `commands`, so it is returned unchanged. -/
def replStep (registry : List (String × Command)) (line : String) :
    ReplAction × List (String × Command) :=
  match splitInput line with
  | [] => (.next none, registry)
  | commandName :: args =>
    if commandName = "exit" then (.halt "Exiting calculator. Goodbye!", registry)
    else if commandName = "menu" then
      (.next (some ("Available commands: " ++
        String.intercalate ", "
          (List.insertionSort (fun a b => a ≤ b) (registry.map Prod.fst)))), registry)
    else
      match dictLookup registry commandName with
      | some cmd => (.next (some ("Result: " ++ renderResult (cmd args))), registry)
      | none =>
        (.next (some "Invalid command. Type \x27menu\x27 to see available commands."), registry)

/-- Last binding of a key among a list of entries: the binding that survives
after all entries are inserted into a dict in order.  Specification-side
vocabulary for stating the overwrite semantics of `dict.update`. -/
def lastLookup {α : Type} : List (String × α) → String → Option α
  | [], _ => none
  | (k, v) :: rest, key =>
    match lastLookup rest key with
    | some w => some w
    | none => if k = key then some v else none

/-- First-of-two fallback on optional values: the left value when present,
the right one otherwise.  Specification-side vocabulary for stating which
binding a merged registry serves. -/
def orFallback {α : Type} : Option α → Option α → Option α
  | some v, _ => some v
  | none, b => b

theorem parseAll_nil : parseAll [] = some [] := rfl

theorem parseAll_ne_nil {args : List String} {a : ℚ} {qs : List ℚ}
    (h : parseAll args = some (a :: qs)) : args ≠ [] := by
  intro hnil
  subst hnil
  simp [parseAll] at h

theorem parseAll_none_of_mem {args : List String} {t : String}
    (hmem : t ∈ args) (hbad : parseFloat t = none) : parseAll args = none := by
  induction args with
  | nil => cases hmem
  | cons a rest ih =>
    rcases List.mem_cons.mp hmem with h | h
    · subst h
      simp [parseAll, hbad]
    · unfold parseAll
      rw [ih h]
      cases parseFloat a <;> simp

theorem divideFold_zero (pre : List ℚ) (acc : ℚ) (post : List ℚ) :
    divideFold acc (pre ++ 0 :: post) = .err "Error: Division by zero" := by
  induction pre generalizing acc with
  | nil => simp [divideFold]
  | cons p ps ih =>
    by_cases hp : p = 0
    · simp [divideFold, hp]
    · simp [divideFold, hp, ih]

theorem divideFold_no_zero (ds : List ℚ) (acc : ℚ) (hz : ∀ x ∈ ds, x ≠ 0) :
    divideFold acc ds = .num (ds.foldl (fun a n => a / n) acc) := by
  induction ds generalizing acc with
  | nil => simp [divideFold]
  | cons d ds ih =>
    have hd : d ≠ 0 := hz d (by simp)
    rw [divideFold, if_neg hd, List.foldl_cons]
    exact ih (acc / d) (fun x hx => hz x (by simp [hx]))

theorem result_num_or_err (r : Result) : (∃ q, r = .num q) ∨ (∃ m, r = .err m) := by
  cases r with
  | num q => exact Or.inl ⟨q, rfl⟩
  | err m => exact Or.inr ⟨m, rfl⟩

/-- C3: when called with zero arguments, Add returns 0, Multiply returns 1,
and Subtract and Divide each return the invalid-input error. -/
theorem builtin_empty_args :
    AddCommand.execute [] = .num 0 ∧
    MultiplyCommand.execute [] = .num 1 ∧
    SubtractCommand.execute [] = .err "Error: Invalid input" ∧
    DivideCommand.execute [] = .err "Error: Invalid input" :=
  ⟨rfl, rfl, rfl, rfl⟩

/-- C5: Subtract with exactly one argument that parses as a number returns
that number itself — the empty-check of the source fires only on zero
arguments, and one argument is computed as first minus the sum of the empty
rest. -/
theorem subtract_single_arg (t : String) (q : ℚ) (h : parseFloat t = some q) :
    SubtractCommand.execute [t] = .num q := by
  simp [SubtractCommand.execute, parseAll, h]

/-- Witness for C5 at the concrete token "10". -/
theorem subtract_single_arg_witness :
    parseFloat "10" = some 10 ∧ SubtractCommand.execute ["10"] = .num 10 :=
  ⟨by decide, subtract_single_arg "10" 10 (by decide)⟩

/-- C6: for every pair of tokens that each parse as a number, Add applied to
the two tokens in either order gives the same result. -/
theorem add_commutative (a b : String) (qa qb : ℚ)
    (ha : parseFloat a = some qa) (hb : parseFloat b = some qb) :
    AddCommand.execute [a, b] = AddCommand.execute [b, a] := by
  simp [AddCommand.execute, parseAll, ha, hb, add_comm]

/-- Witness for C6 at the concrete tokens "5" and "10". -/
theorem add_commutative_witness :
    parseFloat "5" = some 5 ∧ parseFloat "10" = some 10 ∧
    AddCommand.execute ["5", "10"] = AddCommand.execute ["10", "5"] :=
  ⟨by decide, by decide, add_commutative "5" "10" 5 10 (by decide) (by decide)⟩

/-- C2 as stated is false on the code: Divide with exactly one argument whose
token does not parse as a number returns the invalid-input error, not the
insufficient-operands error, because all tokens are parsed before the length
check. -/
theorem divide_single_arg_counterexample :
    DivideCommand.execute ["x"] = .err "Error: Invalid input" ∧
    DivideCommand.execute ["x"] ≠ .err "Error: Division requires at least two numbers" :=
  ⟨by decide, by decide⟩

/-- C2 (amended): for every call to Divide with exactly one argument that
parses as a number, the result is the insufficient-operands error, whose
message is distinct from the invalid-input message. -/
theorem divide_single_numeric_arg (t : String) (q : ℚ) (h : parseFloat t = some q) :
    DivideCommand.execute [t] = .err "Error: Division requires at least two numbers" ∧
    "Error: Division requires at least two numbers" ≠ "Error: Invalid input" := by
  refine ⟨?_, by decide⟩
  simp [DivideCommand.execute, parseAll, h]

/-- Witness for the amended C2 at the concrete token "10". -/
theorem divide_single_numeric_arg_witness :
    parseFloat "10" = some 10 ∧
    DivideCommand.execute ["10"] = .err "Error: Division requires at least two numbers" :=
  ⟨by decide, (divide_single_numeric_arg "10" 10 (by decide)).1⟩

/-- C1 as stated is false on the code: a call whose first token parses and
that contains a zero token after the first still returns the invalid-input
error when some other token fails to parse, because all tokens are parsed
before the zero-divisor scan. -/
theorem divide_zero_position_counterexample :
    parseFloat "5" = some 5 ∧ parseFloat "0" = some 0 ∧
    DivideCommand.execute ["5", "0", "x"] = .err "Error: Invalid input" ∧
    DivideCommand.execute ["5", "0", "x"] ≠ .err "Error: Division by zero" :=
  ⟨by decide, by decide, by decide, by decide⟩

/-- C1 (amended): for every call to Divide whose tokens all parse as numbers,
with a divisor equal to exactly 0 in any position after the first value, the
result is the division-by-zero error regardless of where the zero occurs and
regardless of what follows it; and the divisor loop returns at a zero divisor
immediately, performing no further divisions. -/
theorem divide_zero_short_circuit (args : List String) (a : ℚ) (pre post : List ℚ)
    (h : parseAll args = some (a :: (pre ++ 0 :: post))) :
    DivideCommand.execute args = .err "Error: Division by zero" ∧
    (∀ (q : ℚ) (rest : List ℚ), divideFold q (0 :: rest) = .err "Error: Division by zero") := by
  constructor
  · have hne := parseAll_ne_nil h
    cases args with
    | nil => exact absurd rfl hne
    | cons t ts =>
      have hlen : (a :: (pre ++ 0 :: post)).length ≠ 1 := by
        simp only [List.length_cons, List.length_append]
        omega
      simp [DivideCommand.execute, h, hlen, divideFold_zero]
  · intro q rest
    simp [divideFold]

/-- Witness for the amended C1 at the concrete call divide 8 0 3. -/
theorem divide_zero_short_circuit_witness :
    parseAll ["8", "0", "3"] = some (8 :: ([] ++ 0 :: [3])) ∧
    DivideCommand.execute ["8", "0", "3"] = .err "Error: Division by zero" :=
  ⟨by decide, (divide_zero_short_circuit ["8", "0", "3"] 8 [] [3] (by decide)).1⟩

/-- C4: Divide with two or more arguments that all parse as numbers and no
zero divisor returns the left-fold quotient: the first value divided by each
subsequent value in order, left to right. -/
theorem divide_left_fold (args : List String) (a : ℚ) (rest : List ℚ)
    (hp : parseAll args = some (a :: rest)) (hne : rest ≠ [])
    (hz : ∀ x ∈ rest, x ≠ 0) :
    DivideCommand.execute args = .num (rest.foldl (fun acc n => acc / n) a) := by
  have hnil := parseAll_ne_nil hp
  cases args with
  | nil => exact absurd rfl hnil
  | cons t ts =>
    have hlen : (a :: rest).length ≠ 1 := by
      cases rest with
      | nil => exact absurd rfl hne
      | cons r rs =>
        simp only [List.length_cons]
        omega
    simp [DivideCommand.execute, hp, hlen, hne, divideFold_no_zero rest a hz]

/-- Witness for C4 at the concrete call divide 8 2, whose result is 4. -/
theorem divide_left_fold_witness :
    DivideCommand.execute ["8", "2"] = .num 4 := by
  have h := divide_left_fold ["8", "2"] 8 [2] (by decide) (by decide) (by decide)
  simpa [List.foldl_cons, List.foldl_nil, show (8 : ℚ) / 2 = 4 by norm_num] using h

/-- C10: in Divide, unparseable tokens take priority over every other error
condition: any argument list containing a token that fails to parse yields
the invalid-input error, even with exactly one element and even when a zero
divisor precedes the unparseable token. -/
theorem divide_unparseable_priority (args : List String) (t : String)
    (hmem : t ∈ args) (hbad : parseFloat t = none) :
    DivideCommand.execute args = .err "Error: Invalid input" := by
  have hnone : parseAll args = none := parseAll_none_of_mem hmem hbad
  cases args with
  | nil => cases hmem
  | cons a rest => simp [DivideCommand.execute, hnone]

/-- Witness for C10: a zero divisor preceding the unparseable token, and a
single unparseable token. -/
theorem divide_unparseable_priority_witness :
    DivideCommand.execute ["7", "0", "z"] = .err "Error: Invalid input" ∧
    DivideCommand.execute ["q"] = .err "Error: Invalid input" :=
  ⟨divide_unparseable_priority ["7", "0", "z"] "z" (by decide) (by decide),
   divide_unparseable_priority ["q"] "q" (by decide) (by decide)⟩

/-- C9: each built-in execute is total over string argument lists: every call
returns either a number or an error string (modelled by totality of these
functions — no exception escapes), and every parse failure is converted to
the invalid-input error rather than propagated. -/
theorem execute_total :
    (∀ args : List String,
      ((∃ q, AddCommand.execute args = .num q) ∨ (∃ m, AddCommand.execute args = .err m)) ∧
      ((∃ q, SubtractCommand.execute args = .num q) ∨ (∃ m, SubtractCommand.execute args = .err m)) ∧
      ((∃ q, MultiplyCommand.execute args = .num q) ∨ (∃ m, MultiplyCommand.execute args = .err m)) ∧
      ((∃ q, DivideCommand.execute args = .num q) ∨ (∃ m, DivideCommand.execute args = .err m))) ∧
    (∀ args : List String, parseAll args = none →
      AddCommand.execute args = .err "Error: Invalid input" ∧
      SubtractCommand.execute args = .err "Error: Invalid input" ∧
      MultiplyCommand.execute args = .err "Error: Invalid input" ∧
      DivideCommand.execute args = .err "Error: Invalid input") := by
  constructor
  · intro args
    exact ⟨result_num_or_err _, result_num_or_err _, result_num_or_err _, result_num_or_err _⟩
  · intro args h
    cases args with
    | nil => simp [parseAll] at h
    | cons a rest =>
      exact ⟨by simp [AddCommand.execute, h], by simp [SubtractCommand.execute, h],
             by simp [MultiplyCommand.execute, h], by simp [DivideCommand.execute, h]⟩

/-- Witness for C9 at the unparseable token "zz". -/
theorem execute_total_witness :
    AddCommand.execute ["zz"] = .err "Error: Invalid input" ∧
    SubtractCommand.execute ["zz"] = .err "Error: Invalid input" ∧
    MultiplyCommand.execute ["zz"] = .err "Error: Invalid input" ∧
    DivideCommand.execute ["zz"] = .err "Error: Invalid input" :=
  execute_total.2 ["zz"] (by decide)

theorem dictLookup_dictInsert_self {α : Type} (d : List (String × α)) (k : String) (v : α) :
    dictLookup (dictInsert d k v) k = some v := by
  induction d with
  | nil => simp [dictInsert, dictLookup]
  | cons kv rest ih =>
    obtain ⟨k0, v0⟩ := kv
    by_cases h : k0 = k
    · simp [dictInsert, dictLookup, h]
    · simp [dictInsert, dictLookup, h, ih]

theorem dictLookup_dictInsert_ne {α : Type} (d : List (String × α)) (k key : String) (v : α)
    (h : k ≠ key) : dictLookup (dictInsert d k v) key = dictLookup d key := by
  induction d with
  | nil => simp [dictInsert, dictLookup, h]
  | cons kv rest ih =>
    obtain ⟨k0, v0⟩ := kv
    by_cases h0 : k0 = k
    · subst h0
      simp [dictInsert, dictLookup, h]
    · simp [dictInsert, dictLookup, h0, ih]

theorem dictLookup_dictUpdate {α : Type} (entries : List (String × α)) (d : List (String × α))
    (key : String) :
    dictLookup (dictUpdate d entries) key =
      orFallback (lastLookup entries key) (dictLookup d key) := by
  induction entries generalizing d with
  | nil => rfl
  | cons kv rest ih =>
    obtain ⟨k, v⟩ := kv
    show dictLookup (dictUpdate (dictInsert d k v) rest) key = _
    rw [ih]
    cases hr : lastLookup rest key with
    | some w => simp [lastLookup, hr, orFallback]
    | none =>
      by_cases hk : k = key
      · subst hk
        simp [lastLookup, hr, orFallback, dictLookup_dictInsert_self]
      · simp [lastLookup, hr, hk, orFallback, dictLookup_dictInsert_ne d k key v hk]

/-- C7: the registry starts from the four built-in operations under the fixed
lowercase names add, subtract, multiply, divide, then merges the plugin
mapping with dict-update semantics — a plugin entry silently overwrites a
colliding built-in, and a name bound by no plugin entry keeps its built-in
binding — and a REPL iteration returns the registry unchanged, so after
construction the registry is never mutated. -/
theorem registry_construction :
    builtinCommands =
      [("add", AddCommand.execute), ("subtract", SubtractCommand.execute),
       ("multiply", MultiplyCommand.execute), ("divide", DivideCommand.execute)] ∧
    (∀ (pluginCommands : List (String × Command)) (key : String),
      dictLookup (commands pluginCommands) key =
        orFallback (lastLookup pluginCommands key) (dictLookup builtinCommands key)) ∧
    (∀ (pluginCommands : List (String × Command)) (line : String),
      (replStep (commands pluginCommands) line).2 = commands pluginCommands) := by
  refine ⟨rfl, ?_, ?_⟩
  · intro pluginCommands key
    unfold commands
    exact dictLookup_dictUpdate pluginCommands builtinCommands key
  · intro pluginCommands line
    unfold replStep
    rcases splitInput line with _ | ⟨c, args⟩
    · rfl
    · dsimp only
      by_cases h1 : c = "exit"
      · simp [h1]
      · by_cases h2 : c = "menu"
        · simp [h1, h2]
        · cases hdl : dictLookup (commands pluginCommands) c <;> simp [h1, h2, hdl]

theorem loadLoop_stop_commands (pkgName : String) (m : PluginModule)
    (hm : m.outcome = ImportOutcome.notFound ∨ ∃ e, m.outcome = ImportOutcome.failure e)
    (pre post : List PluginModule) :
    ∀ (acc : List (String × Command)) (logs : List (LogLevel × String)),
      (PluginLoader.loadLoop pkgName acc logs (pre ++ m :: post)).1 =
        (PluginLoader.loadLoop pkgName acc logs pre).1 := by
  induction pre with
  | nil =>
    intro acc logs
    rcases hm with h | ⟨e, h⟩ <;> simp [PluginLoader.loadLoop, h]
  | cons p ps ih =>
    intro acc logs
    cases hp : p.outcome with
    | notFound => simp [PluginLoader.loadLoop, hp]
    | failure e => simp [PluginLoader.loadLoop, hp]
    | ok v =>
      cases v with
      | none => simpa [PluginLoader.loadLoop, hp] using ih _ _
      | some cmds => simpa [PluginLoader.loadLoop, hp] using ih _ _

theorem loadLoop_stop_log (pkgName : String) (m : PluginModule) (post : List PluginModule)
    (entry : LogLevel × String)
    (hentry : (m.outcome = ImportOutcome.notFound ∧
        entry = (.warning, "Plugin package \x27" ++ pkgName ++ "\x27 not found.")) ∨
      (∃ e, m.outcome = ImportOutcome.failure e ∧
        entry = (.error, "Error loading plugins: " ++ e))) :
    ∀ pre : List PluginModule, (∀ x ∈ pre, ∃ v, x.outcome = ImportOutcome.ok v) →
      ∀ (acc : List (String × Command)) (logs : List (LogLevel × String)),
        entry ∈ (PluginLoader.loadLoop pkgName acc logs (pre ++ m :: post)).2 := by
  intro pre
  induction pre with
  | nil =>
    intro _ acc logs
    rcases hentry with ⟨h, he⟩ | ⟨e, h, he⟩ <;> subst he <;> simp [PluginLoader.loadLoop, h]
  | cons p ps ih =>
    intro hpre acc logs
    obtain ⟨v, hp⟩ := hpre p (by simp)
    have hps : ∀ x ∈ ps, ∃ w, x.outcome = ImportOutcome.ok w :=
      fun x hx => hpre x (by simp [hx])
    cases v with
    | none => simpa [PluginLoader.loadLoop, hp] using ih hps _ _
    | some cmds => simpa [PluginLoader.loadLoop, hp] using ih hps _ _

/-- C8: no exception escapes the plugin loader (modelled by totality of
`PluginLoader.load_plugins`): a missing plugin source logs a warning naming
the source and leaves the accumulated mapping as whatever was merged before
the failure (empty when the package import itself raises); any other failure
logs an error with the failure detail; a failure while importing a
sub-module stops loading there, keeping the partial results from the
sub-modules already processed and never touching the later ones. -/
theorem plugin_loader_no_escape :
    (∀ pkgName, PluginLoader.load_plugins pkgName .notFound =
      ([], [(.warning, "Plugin package \x27" ++ pkgName ++ "\x27 not found.")])) ∧
    (∀ pkgName e, PluginLoader.load_plugins pkgName (.failure e) =
      ([], [(.error, "Error loading plugins: " ++ e)])) ∧
    (∀ (pkgName : String) (pre post : List PluginModule) (m : PluginModule),
      (m.outcome = ImportOutcome.notFound ∨ ∃ e, m.outcome = ImportOutcome.failure e) →
      (PluginLoader.load_plugins pkgName (.ok (pre ++ m :: post))).1 =
        (PluginLoader.load_plugins pkgName (.ok pre)).1) ∧
    (∀ (pkgName : String) (pre post : List PluginModule) (m : PluginModule),
      (∀ x ∈ pre, ∃ v, x.outcome = ImportOutcome.ok v) →
      m.outcome = ImportOutcome.notFound →
      (LogLevel.warning, "Plugin package \x27" ++ pkgName ++ "\x27 not found.") ∈
        (PluginLoader.load_plugins pkgName (.ok (pre ++ m :: post))).2) ∧
    (∀ (pkgName : String) (pre post : List PluginModule) (m : PluginModule) (e : String),
      (∀ x ∈ pre, ∃ v, x.outcome = ImportOutcome.ok v) →
      m.outcome = ImportOutcome.failure e →
      (LogLevel.error, "Error loading plugins: " ++ e) ∈
        (PluginLoader.load_plugins pkgName (.ok (pre ++ m :: post))).2) := by
  refine ⟨fun _ => rfl, fun _ _ => rfl, ?_, ?_, ?_⟩
  · intro pkgName pre post m hm
    exact loadLoop_stop_commands pkgName m hm pre post [] []
  · intro pkgName pre post m hpre hm
    exact loadLoop_stop_log pkgName m post _ (Or.inl ⟨hm, rfl⟩) pre hpre [] []
  · intro pkgName pre post m e hpre hm
    exact loadLoop_stop_log pkgName m post _ (Or.inr ⟨e, hm, rfl⟩) pre hpre [] []

/-- Witness for C8: a source whose second sub-module raises keeps the mapping
merged from the first sub-module and logs the error. -/
theorem plugin_loader_no_escape_witness :
    (PluginLoader.load_plugins "plugins"
        (.ok [⟨"good", .ok (some [("neg", SubtractCommand.execute)])⟩,
              ⟨"bad", .failure "boom"⟩,
              ⟨"late", .ok none⟩])).1 =
      (PluginLoader.load_plugins "plugins"
        (.ok [⟨"good", .ok (some [("neg", SubtractCommand.execute)])⟩])).1 ∧
    (LogLevel.error, "Error loading plugins: " ++ "boom") ∈
      (PluginLoader.load_plugins "plugins"
        (.ok [⟨"good", .ok (some [("neg", SubtractCommand.execute)])⟩,
              ⟨"bad", .failure "boom"⟩,
              ⟨"late", .ok none⟩])).2 := by
  constructor
  · exact plugin_loader_no_escape.2.2.1 "plugins"
      [⟨"good", .ok (some [("neg", SubtractCommand.execute)])⟩]
      [⟨"late", .ok none⟩] ⟨"bad", .failure "boom"⟩ (Or.inr ⟨"boom", rfl⟩)
  · exact plugin_loader_no_escape.2.2.2.2 "plugins"
      [⟨"good", .ok (some [("neg", SubtractCommand.execute)])⟩]
      [⟨"late", .ok none⟩] ⟨"bad", .failure "boom"⟩ "boom"
      (by
        intro x hx
        simp only [List.mem_singleton] at hx
        subst hx
        exact ⟨some [("neg", SubtractCommand.execute)], rfl⟩)
      rfl
